import Mathlib

/-!
Verification of the AutoGenerator path-planner core: a shallow embedding of
its geometry kernel, path model, code generator, code decoder and simulator,
together with theorems settling the specification claims.

Conventions of the embedding:
* JavaScript numbers are modelled as real numbers (`ℝ`); `Math.round` is
  Mathlib's `round` (both are `⌊x + 1/2⌋`), `toFixed(k)` is modelled as
  rounding to `k` decimal places at the real-number level.
* Stateful code is modelled by explicit state passing: the mutable globals
  `waypoints`, `markers`, `start`, `selectedSegmentIdx`, `history` become the
  fields of an `AppState` record, and every mutating function takes and
  returns an `AppState`.
* Text output/input is modelled at the token level where a claim needs it:
  the field-oriented generator is modelled by the list of numeric pose
  literals it prints, and the parsers by scanners over the raw string.
-/

noncomputable section
open scoped Classical

/-! ## Geometry kernel (math helpers from the core utilities file) -/

/-- `radToDeg(r)` from the source: `r * 180 / Math.PI`. -/
def radToDeg (r : ℝ) : ℝ := r * 180 / Real.pi

/-- `degToRad(d)` from the source: `d * Math.PI / 180`. -/
def degToRad (d : ℝ) : ℝ := d * Real.pi / 180

/-- First loop of `wrapDeg`: `while (d > 180) d -= 360`. -/
def wrapDegUp (d : ℝ) : ℝ :=
  if 180 < d then wrapDegUp (d - 360) else d
termination_by (⌈d⌉ - 180).toNat
decreasing_by
  rename_i h
  have h1 : (180 : ℤ) < ⌈d⌉ := Int.lt_ceil.mpr (by exact_mod_cast h)
  have h2 : ⌈d - (360 : ℝ)⌉ = ⌈d⌉ - 360 := by
    rw [show ((360 : ℝ)) = ((360 : ℤ) : ℝ) by norm_num, Int.ceil_sub_int]
  rw [h2]
  omega

/-- Second loop of `wrapDeg`: `while (d < -180) d += 360`. -/
def wrapDegDown (d : ℝ) : ℝ :=
  if d < -180 then wrapDegDown (d + 360) else d
termination_by (-180 - ⌊d⌋).toNat
decreasing_by
  rename_i h
  have h1 : (⌊d⌋ : ℝ) ≤ d := Int.floor_le d
  have h2 : (⌊d⌋ : ℝ) < -180 := lt_of_le_of_lt h1 h
  have h3 : ⌊d⌋ < (-180 : ℤ) := by exact_mod_cast h2
  have h4 : ⌊d + (360 : ℝ)⌋ = ⌊d⌋ + 360 := by
    rw [show ((360 : ℝ)) = ((360 : ℤ) : ℝ) by norm_num, Int.floor_add_int]
  rw [h4]
  omega

/-- `wrapDeg(d)` from the source:
`while (d > 180) d -= 360; while (d < -180) d += 360; return d`. -/
def wrapDeg (d : ℝ) : ℝ := wrapDegDown (wrapDegUp d)

lemma wrapDegUp_le (d : ℝ) : wrapDegUp d ≤ 180 := by
  induction d using wrapDegUp.induct with
  | case1 d h ih => rw [wrapDegUp.eq_def, if_pos h]; exact ih
  | case2 d h => rw [wrapDegUp.eq_def, if_neg h]; linarith [not_lt.mp h]

lemma wrapDegDown_bounds (d : ℝ) (hd : d ≤ 180) :
    -180 ≤ wrapDegDown d ∧ wrapDegDown d ≤ 180 := by
  induction d using wrapDegDown.induct with
  | case1 d h ih =>
      rw [wrapDegDown.eq_def, if_pos h]
      exact ih (by linarith)
  | case2 d h =>
      rw [wrapDegDown.eq_def, if_neg h]
      exact ⟨not_lt.mp h, hd⟩

lemma wrapDegUp_of_le {d : ℝ} (h : d ≤ 180) : wrapDegUp d = d := by
  rw [wrapDegUp.eq_def, if_neg (by linarith)]

lemma wrapDegDown_of_ge {d : ℝ} (h : -180 ≤ d) : wrapDegDown d = d := by
  rw [wrapDegDown.eq_def, if_neg (by linarith)]

/-- C4: the claim as amended.  `wrapDeg` (the implementation of
`normalizeAngleDeg`) always lands in the closed interval `[-180, 180]` (not
the half-open `(-180, 180]` of the original claim), and it is 360-periodic at
every input except `-180` itself. -/
theorem c4_theorem :
    (∀ d : ℝ, -180 ≤ wrapDeg d ∧ wrapDeg d ≤ 180) ∧
    (∀ d : ℝ, d ≠ -180 → wrapDeg (d + 360) = wrapDeg d) := by
  constructor
  · intro d
    exact wrapDegDown_bounds _ (wrapDegUp_le d)
  · intro d hd
    rcases lt_trichotomy d (-180) with hlt | heq | hgt
    · have h1 : wrapDegUp d = d := wrapDegUp_of_le (by linarith)
      have h2 : wrapDegUp (d + 360) = d + 360 := wrapDegUp_of_le (by linarith)
      unfold wrapDeg
      rw [h1, h2, wrapDegDown.eq_def (d := d), if_pos hlt]
    · exact absurd heq hd
    · have h2 : wrapDegUp (d + 360) = wrapDegUp d := by
        rw [wrapDegUp.eq_def (d := d + 360), if_pos (by linarith)]
        norm_num
      unfold wrapDeg
      rw [h2]

/-- C4 witness: the amended claim evaluated at the concrete input 7. -/
theorem c4_witness :
    (-180 ≤ wrapDeg (7 : ℝ) ∧ wrapDeg (7 : ℝ) ≤ 180) ∧
    wrapDeg ((7 : ℝ) + 360) = wrapDeg 7 :=
  ⟨c4_theorem.1 7, c4_theorem.2 7 (by norm_num)⟩

/-- C4 counterexample to the original claim: at `d = -180` the returned value
is `-180`, which is not in `(-180, 180]`, and adding 360 changes the result
(so 360-periodicity over the integers also fails at `-180`). -/
theorem c4_counterexample :
    ¬ (-180 < wrapDeg (-180 : ℝ)) ∧
    wrapDeg ((-180 : ℝ) + 360) ≠ wrapDeg (-180 : ℝ) := by
  have hm : wrapDeg (-180 : ℝ) = -180 := by
    unfold wrapDeg
    rw [wrapDegUp_of_le (by norm_num), wrapDegDown_of_ge (by norm_num)]
  have hp : wrapDeg ((-180 : ℝ) + 360) = 180 := by
    unfold wrapDeg
    rw [show ((-180 : ℝ) + 360) = 180 by norm_num,
      wrapDegUp_of_le (by norm_num), wrapDegDown_of_ge (by norm_num)]
  rw [hm, hp]
  norm_num

/-- `Math.hypot(x, y)` / `Math.sqrt(dx*dx + dy*dy)` from the source. -/
def jsHypot (x y : ℝ) : ℝ := Real.sqrt (x * x + y * y)

/-- `Math.atan2(y, x)` with the JavaScript quadrant conventions. -/
def atan2 (y x : ℝ) : ℝ :=
  if 0 < x then Real.arctan (y / x)
  else if x < 0 then
    (if 0 ≤ y then Real.arctan (y / x) + Real.pi
     else Real.arctan (y / x) - Real.pi)
  else if 0 < y then Real.pi / 2
  else if y < 0 then -(Real.pi / 2)
  else 0

/-- `Math.sign(d)` from JavaScript. -/
def jsSign (d : ℝ) : ℝ := if 0 < d then 1 else if d < 0 then -1 else 0

/-- `v.toFixed(1)` modelled at the real-number level: the numeric value of
the printed one-decimal string (round half away from zero on the decimal,
which for the reals is `⌊10 v + 1/2⌋ / 10`, Mathlib's `round`). -/
def jsToFixed1 (v : ℝ) : ℝ := (round (v * 10) : ℝ) / 10

/-- `v.toFixed(2)` modelled at the real-number level. -/
def jsToFixed2 (v : ℝ) : ℝ := (round (v * 100) : ℝ) / 100

/-- A planar point in meters. -/
structure Point where
  x : ℝ
  y : ℝ

/-- A pose `{x, y, h}`: position in meters, heading in radians. -/
structure Pose where
  x : ℝ
  y : ℝ
  h : ℝ

/-- Quadratic Bezier evaluation (`bezierPoint` in the simulator). -/
def bezierPoint (t p0x p0y p1x p1y p2x p2y : ℝ) : Point :=
  ⟨(1 - t) * (1 - t) * p0x + 2 * (1 - t) * t * p1x + t * t * p2x,
   (1 - t) * (1 - t) * p0y + 2 * (1 - t) * t * p1y + t * t * p2y⟩

/-- `computeDefaultArcControl(prevWp, p)` from the source, on the two
endpoint positions. -/
def computeDefaultArcControl (prevPt p : Point) : Point :=
  let dx := p.x - prevPt.x
  let dy := p.y - prevPt.y
  let dist := jsHypot dx dy
  if dist < 1e-6 then ⟨(prevPt.x + p.x) / 2, (prevPt.y + p.y) / 2⟩
  else
    let segAngle := atan2 dy dx
    let perpAngle := segAngle + Real.pi / 2
    let controlDist := dist * 0.3
    ⟨(prevPt.x + p.x) / 2 + Real.cos perpAngle * controlDist,
     (prevPt.y + p.y) / 2 + Real.sin perpAngle * controlDist⟩

/-! ## Path model data -/

/-- The `segmentType` discriminant of a geometric waypoint. -/
inductive SegType where
  | drive
  | strafe
  | arc
deriving DecidableEq

/-- A waypoint object as built by the source: position/heading plus the
optional fields of the duck-typed record (`segmentType`, `arcSpeed` and
`arcControlPoint` are absent on action waypoints; `actionId` is absent on
geometric waypoints). -/
structure Waypoint where
  x : ℝ
  y : ℝ
  h : ℝ
  segmentType : Option SegType
  arcSpeed : Option ℝ
  arcControlPoint : Option Point
  isAction : Bool
  actionId : Option ℕ

instance : Inhabited Waypoint := ⟨⟨0, 0, 0, none, none, none, false, none⟩⟩

/-- A marker `{id, x, y, name, args}`. -/
structure Marker where
  id : ℕ
  x : ℝ
  y : ℝ
  name : String
  args : String

/-- One history snapshot, exactly the fields captured by `saveState`. -/
structure Snapshot where
  waypoints : List Waypoint
  markers : List Marker
  start : Pose
  selectedSegmentIdx : Option ℕ

/-- The mutable global state of the application that the core reads and
writes: `waypoints`, `markers`, `start`, `selectedSegmentIdx`, `history`
and the marker id counter. -/
structure AppState where
  waypoints : List Waypoint
  markers : List Marker
  start : Pose
  selectedSegmentIdx : Option ℕ
  history : List Snapshot
  nextMarkerId : ℕ

/-- The snapshot of the current state that `saveState` pushes. -/
def snapOf (st : AppState) : Snapshot :=
  ⟨st.waypoints, st.markers, st.start, st.selectedSegmentIdx⟩

/-- `saveState()` from the source: push a deep snapshot, then
`if (history.length > 20) history.shift()`. -/
def saveState (st : AppState) : AppState :=
  let h := st.history ++ [snapOf st]
  { st with history := if 20 < h.length then h.tail else h }

/-- `undo()` from the source: a no-op on empty history, otherwise pop the
most recent snapshot and replace the current state wholesale. -/
def undo (st : AppState) : AppState :=
  match st.history.getLast? with
  | none => st
  | some s =>
      { st with
        waypoints := s.waypoints
        markers := s.markers
        start := s.start
        selectedSegmentIdx := s.selectedSegmentIdx
        history := st.history.dropLast }

/-- The sequence of snapshots pushed while an operation list `ops` runs,
each operation being preceded by a `saveState` (the structural-mutation
contract of the source). -/
def snapTrace (st : AppState) (ops : List (AppState → AppState)) : List Snapshot :=
  match ops with
  | [] => []
  | op :: rest => snapOf st :: snapTrace (op (saveState st)) rest

/-- Running the operation list, each preceded by a `saveState`. -/
def runOps (st : AppState) (ops : List (AppState → AppState)) : AppState :=
  match ops with
  | [] => st
  | op :: rest => runOps (op (saveState st)) rest

lemma saveState_history (st : AppState) :
    (saveState st).history =
      if 20 < st.history.length + 1 then (st.history ++ [snapOf st]).tail
      else st.history ++ [snapOf st] := by
  simp [saveState]

lemma snapTrace_length (st : AppState) (ops : List (AppState → AppState)) :
    (snapTrace st ops).length = ops.length := by
  induction ops generalizing st with
  | nil => rfl
  | cons op rest ih => simp [snapTrace, ih]

/-- Invariant step: running the ops from a state whose history is the
20-element tail of the trace so far keeps that shape. -/
lemma runOps_history (ops : List (AppState → AppState))
    (hops : ∀ op ∈ ops, ∀ s : AppState, (op s).history = s.history) :
    ∀ st : AppState, ∀ pref : List Snapshot,
      st.history = pref.drop (pref.length - 20) →
      (runOps st ops).history =
        (pref ++ snapTrace st ops).drop ((pref ++ snapTrace st ops).length - 20) := by
  induction ops with
  | nil => intro st pref h; simpa [runOps, snapTrace]
  | cons op rest ih =>
      intro st pref h
      have hop : ∀ s : AppState, (op s).history = s.history :=
        hops op (List.mem_cons_self _ _)
      have hrest : ∀ o ∈ rest, ∀ s : AppState, (o s).history = s.history :=
        fun o ho => hops o (List.mem_cons_of_mem _ ho)
      have hlen : st.history.length = min pref.length 20 := by
        rw [h]; simp [List.length_drop]; omega
      have hstep : (op (saveState st)).history =
          (pref ++ [snapOf st]).drop ((pref ++ [snapOf st]).length - 20) := by
        rw [hop, saveState_history]
        by_cases hc : 20 < st.history.length + 1
        · have h20 : st.history.length = 20 := by omega
          have hp : 20 ≤ pref.length := by omega
          have hld : (List.drop (pref.length - 20) pref).length = 20 := by
            rw [← h]; exact h20
          have hne : List.drop (pref.length - 20) pref ≠ [] := by
            intro hnil; rw [hnil] at hld; simp at hld
          rw [if_pos hc, h, List.tail_append_singleton_of_ne_nil hne,
            List.tail_drop]
          have harg : (pref ++ [snapOf st]).length - 20 = pref.length - 20 + 1 := by
            simp; omega
          rw [harg, List.drop_append_of_le_length (by omega)]
        · rw [if_neg hc, h]
          have hp : pref.length ≤ 20 := by omega
          have h0 : pref.length - 20 = 0 := by omega
          have h0' : (pref ++ [snapOf st]).length - 20 = 0 := by simp; omega
          rw [h0, h0']
          simp
      have := ih hrest (op (saveState st)) (pref ++ [snapOf st]) hstep
      rw [runOps, snapTrace, this]
      simp

/-- C7: the history bound, as claimed.  Starting from an empty history and
running any sequence of structural mutations (each preceded by `saveState`,
each itself leaving the history alone), the history is always the most
recent at-most-20 snapshots, so after more than 20 mutations it holds
exactly 20 snapshots and the oldest have been evicted first (FIFO), never
the newest. -/
theorem c7_theorem (st : AppState) (ops : List (AppState → AppState))
    (h0 : st.history = [])
    (hops : ∀ op ∈ ops, ∀ s : AppState, (op s).history = s.history) :
    (runOps st ops).history =
      (snapTrace st ops).drop ((snapTrace st ops).length - 20) ∧
    (20 < ops.length → (runOps st ops).history.length = 20) := by
  have h := runOps_history ops hops st [] (by simpa using h0)
  simp at h
  refine ⟨h, fun hlen => ?_⟩
  rw [h]
  rw [List.length_drop, snapTrace_length]
  omega

/-- C7 witness: 21 mutations (each a history-preserving update preceded by
`saveState`) starting from the empty state leave exactly 20 snapshots, the
oldest evicted. -/
theorem c7_witness :
    (runOps ⟨[], [], ⟨0, 0, 0⟩, none, [], 1⟩
        (List.replicate 21 id)).history =
      (snapTrace ⟨[], [], ⟨0, 0, 0⟩, none, [], 1⟩ (List.replicate 21 id)).drop
        ((snapTrace ⟨[], [], ⟨0, 0, 0⟩, none, [], 1⟩ (List.replicate 21 id)).length - 20) ∧
    (runOps ⟨[], [], ⟨0, 0, 0⟩, none, [], 1⟩
        (List.replicate 21 id)).history.length = 20 := by
  have h := c7_theorem ⟨[], [], ⟨0, 0, 0⟩, none, [], 1⟩ (List.replicate 21 id)
    rfl (by intro op hop s; rcases List.eq_of_mem_replicate hop with rfl; rfl)
  exact ⟨h.1, h.2 (by simp)⟩

/-! ## Path model operations -/

/-- The default-kind waypoint push performed by a plain canvas click
(`canvas mousedown` final branch): `saveState()`, push
`{x, y, h: 0, segmentType: 'drive', arcSpeed: 0.8}`, select it. -/
def addWaypointClick (st : AppState) (m : Point) : AppState :=
  let st1 := saveState st
  let ws := st1.waypoints ++ [⟨m.x, m.y, 0, some .drive, some 0.8, none, false, none⟩]
  { st1 with waypoints := ws, selectedSegmentIdx := some (ws.length - 1) }

/-- `deleteSelectedPoint()` from the source: guarded on a valid selection,
then `saveState()`, splice out the waypoint and clear the selection. -/
def deleteSelectedPoint (st : AppState) : AppState :=
  match st.selectedSegmentIdx with
  | none => st
  | some i =>
      if i < st.waypoints.length then
        let st1 := saveState st
        { st1 with waypoints := st1.waypoints.eraseIdx i, selectedSegmentIdx := none }
      else st

/-- `clearPath()` from the source, in the branch where the user confirms. -/
def clearPathConfirmed (st : AppState) : AppState :=
  let st1 := saveState st
  { st1 with
    waypoints := []
    markers := []
    start := ⟨0, 0, 0⟩
    selectedSegmentIdx := none }

/-- The `segmentType` select-change handler: retype the selected waypoint,
resetting the cached arc control point (`null` when entering `arc`, deleted
when leaving it; both are an absent control point in the model). -/
def retypeSelected (t : SegType) (st : AppState) : AppState :=
  match st.selectedSegmentIdx with
  | none => st
  | some i =>
      if i < st.waypoints.length then
        let st1 := saveState st
        let wp := st1.waypoints.getD i default
        { st1 with waypoints :=
            st1.waypoints.set i { wp with segmentType := some t, arcControlPoint := none } }
      else st

/-- The `mousemove` drag of waypoint `i`: move it and, when it is an arc
waypoint, drop the cached control point so it is recomputed. -/
def moveDraggedWaypoint (i : ℕ) (m : Point) (st : AppState) : AppState :=
  if i < st.waypoints.length then
    let wp := st.waypoints.getD i default
    let wp1 := { wp with x := m.x, y := m.y }
    let wp2 := if wp1.segmentType = some SegType.arc
      then { wp1 with arcControlPoint := none } else wp1
    { st with waypoints := st.waypoints.set i wp2 }
  else st

/-- The selection part of the data-model invariant: `selectedSegmentIdx` is
`null` or an in-range waypoint index. -/
def selOK (st : AppState) : Prop :=
  st.selectedSegmentIdx = none ∨
    ∃ i, st.selectedSegmentIdx = some i ∧ i < st.waypoints.length

/-- The selection invariant for a stored snapshot. -/
def snapSelOK (s : Snapshot) : Prop :=
  s.selectedSegmentIdx = none ∨
    ∃ i, s.selectedSegmentIdx = some i ∧ i < s.waypoints.length

/-- The full selection invariant: it holds for the live state and for every
snapshot in the undo history (so that `undo` restores a valid selection). -/
def selInv (st : AppState) : Prop :=
  selOK st ∧ ∀ s ∈ st.history, snapSelOK s

lemma selInv_saveState {st : AppState} (h : selInv st) : selInv (saveState st) := by
  obtain ⟨h1, h2⟩ := h
  refine ⟨?_, ?_⟩
  · rcases h1 with h1 | ⟨i, hi, hlen⟩
    · exact Or.inl h1
    · exact Or.inr ⟨i, hi, hlen⟩
  · intro s hs
    simp only [saveState] at hs
    have hs' : s ∈ st.history ++ [snapOf st] := by
      by_cases hc : 20 < (st.history ++ [snapOf st]).length
      · rw [if_pos hc] at hs
        exact (List.tail_sublist _).subset hs
      · rwa [if_neg hc] at hs
    rcases List.mem_append.mp hs' with hmem | hmem
    · exact h2 s hmem
    · rcases List.mem_singleton.mp hmem with rfl
      rcases h1 with h1 | ⟨i, hi, hlen⟩
      · exact Or.inl h1
      · exact Or.inr ⟨i, hi, hlen⟩

/-- C9: the claim as amended.  Every public path-model operation except the
decoder (waypoint add, delete, clear, retype, drag-move, undo) preserves the
selection invariant — the selection stays `null` or in range, for the live
state and every stored snapshot — and deleting the selected waypoint always
clears the selection.  (The decoder can break the invariant; see the
counterexample.) -/
theorem c9_theorem :
    (∀ st m, selInv st → selInv (addWaypointClick st m)) ∧
    (∀ st, selInv st → selInv (deleteSelectedPoint st)) ∧
    (∀ st, selInv st → selInv (clearPathConfirmed st)) ∧
    (∀ st t, selInv st → selInv (retypeSelected t st)) ∧
    (∀ st i m, selInv st → selInv (moveDraggedWaypoint i m st)) ∧
    (∀ st, selInv st → selInv (undo st)) ∧
    (∀ st i, st.selectedSegmentIdx = some i → i < st.waypoints.length →
      (deleteSelectedPoint st).selectedSegmentIdx = none) := by
  refine ⟨?_, ?_, ?_, ?_, ?_, ?_, ?_⟩
  · intro st m h
    have h' := selInv_saveState h
    refine ⟨Or.inr ⟨(saveState st).waypoints.length, by simp [addWaypointClick], ?_⟩, ?_⟩
    · simp [addWaypointClick]
    · intro s hs
      exact h'.2 s hs
  · intro st h
    rcases hsel : st.selectedSegmentIdx with _ | i
    · simpa only [deleteSelectedPoint, hsel] using h
    · simp only [deleteSelectedPoint, hsel]
      by_cases hi : i < st.waypoints.length
      · rw [if_pos hi]
        exact ⟨Or.inl rfl, fun s hs => (selInv_saveState h).2 s hs⟩
      · rw [if_neg hi]; exact h
  · intro st h
    refine ⟨Or.inl (by simp [clearPathConfirmed]), ?_⟩
    intro s hs
    exact (selInv_saveState h).2 s hs
  · intro st t h
    rcases hsel : st.selectedSegmentIdx with _ | i
    · simpa only [retypeSelected, hsel] using h
    · simp only [retypeSelected, hsel]
      by_cases hi : i < st.waypoints.length
      · rw [if_pos hi]
        refine ⟨?_, fun s hs => (selInv_saveState h).2 s hs⟩
        refine Or.inr ⟨i, by simp [saveState, hsel], ?_⟩
        simp [saveState]
        omega
      · rw [if_neg hi]; exact h
  · intro st i m h
    unfold moveDraggedWaypoint
    by_cases hi : i < st.waypoints.length
    · rw [if_pos hi]
      obtain ⟨h1, h2⟩ := h
      refine ⟨?_, h2⟩
      rcases h1 with h1 | ⟨j, hj, hlen⟩
      · exact Or.inl h1
      · exact Or.inr ⟨j, hj, by simpa using hlen⟩
    · rw [if_neg hi]; exact h
  · intro st h
    rcases hlast : st.history.getLast? with _ | s
    · simpa only [undo, hlast] using h
    · simp only [undo, hlast]
      have hmem : s ∈ st.history := by
        obtain ⟨hne, heq⟩ :=
          List.mem_getLast?_eq_getLast (Option.mem_def.mpr hlast)
        rw [heq]
        exact List.getLast_mem hne
      have hsnap := h.2 s hmem
      refine ⟨?_, ?_⟩
      · rcases hsnap with h1 | ⟨i, hi, hlen⟩
        · exact Or.inl h1
        · exact Or.inr ⟨i, hi, hlen⟩
      · intro s' hs'
        exact h.2 s' ((List.dropLast_sublist _).subset hs')
  · intro st i hsel hi
    simp only [deleteSelectedPoint, hsel, if_pos hi]

/-- C9 witness: the amended invariant-preservation applied at concrete
states: the empty state for the preserving operations, and a one-waypoint
state with a live selection for the delete-clears-selection component. -/
theorem c9_witness :
    selInv (addWaypointClick ⟨[], [], ⟨0, 0, 0⟩, none, [], 1⟩ ⟨1, 2⟩) ∧
    selInv (undo ⟨[], [], ⟨0, 0, 0⟩, none, [], 1⟩) ∧
    (deleteSelectedPoint
        ⟨[⟨1, 0, 0, some SegType.drive, some 0.8, none, false, none⟩], [],
          ⟨0, 0, 0⟩, some 0, [], 1⟩).selectedSegmentIdx = none := by
  have hinv : selInv ⟨[], [], ⟨0, 0, 0⟩, none, [], 1⟩ := by
    constructor
    · exact Or.inl rfl
    · intro s hs; simp at hs
  refine ⟨c9_theorem.1 _ _ hinv, (c9_theorem.2.2.2.2.2.1) _ hinv, ?_⟩
  exact c9_theorem.2.2.2.2.2.2 _ 0 rfl (by simp)

/-! ## Robot-oriented code generator -/

/-- One emitted program command of the robot-oriented dialect.  Distances
carry the two-decimal rounding of `toFixed(2)`; angles carry `Math.round`.
An arc command carries its `(parameter, headingDegrees)` sample list. -/
inductive Cmd where
  | turn (deg : ℤ)
  | drive (dist : ℝ) (deg : ℤ)
  | strafe (dist : ℝ) (deg : ℤ)
  | arc (len speed : ℝ) (samples : List (ℝ × ℤ))
  | call (name : String) (args : String)

/-- The start pose viewed as the duck-typed first element of
`[start].concat(waypoints)`: no `segmentType`, `arcSpeed`, control point or
action fields. -/
def startAsWp (p : Pose) : Waypoint := ⟨p.x, p.y, p.h, none, none, none, false, none⟩

/-- The arc-length approximation from the generator: sample the quadratic
Bezier at `t = s/10`, `s = 1..10`, and sum the chord lengths from the
previous sample (starting at `P0`). -/
def bezApproxLen10 (P0 P1 P2 : Point) : ℝ :=
  ((List.range' 1 10).foldl
    (fun (acc : ℝ × Point) (s : ℕ) =>
      let t : ℝ := (s : ℝ) / 10
      let px := (1 - t) * (1 - t) * P0.x + 2 * (1 - t) * t * P1.x + t * t * P2.x
      let py := (1 - t) * (1 - t) * P0.y + 2 * (1 - t) * t * P1.y + t * t * P2.y
      (acc.1 + jsHypot (px - acc.2.x) (py - acc.2.y), (⟨px, py⟩ : Point)))
    ((0 : ℝ), P0)).1

/-- The interior heading samples of a generated arc command:
`for (s = 1; s < arcSamples; s++)`, parameter `t = s / arcSamples` printed
with `toFixed(2)`, heading from the Bezier first derivative at `t`. -/
def arcInteriorSamples (arcSamples : ℕ) (P0 P1 P2 : Point) : List (ℝ × ℤ) :=
  (List.range' 1 (arcSamples - 1)).map (fun (s : ℕ) =>
    let t : ℝ := (s : ℝ) / (arcSamples : ℝ)
    let dx := 2 * (1 - t) * (P1.x - P0.x) + 2 * t * (P2.x - P1.x)
    let dy := 2 * (1 - t) * (P1.y - P0.y) + 2 * t * (P2.y - P1.y)
    (jsToFixed2 t, round (radToDeg (atan2 dy dx))))

/-- The commands emitted by `generateRobotOrientedCode` for one consecutive
pose pair `(prev, cur)` (the body of its `for` loop; the write-only
`curHeading` variable of the source is dropped). -/
def segRobotCmds (markers : List Marker) (arcSamples : ℕ)
    (prev cur : Waypoint) : List Cmd :=
  let dx := cur.x - prev.x
  let dy := cur.y - prev.y
  let dist := jsHypot dx dy
  if dist < 0.001 then
    if 0.0001 < |cur.h| then [Cmd.turn (round (radToDeg (-cur.h)))] else []
  else
    let segAngleDeg := radToDeg (atan2 dy dx)
    let segmentType := cur.segmentType.getD SegType.drive
    let arcSpeed := match cur.arcSpeed with
      | none => (0.8 : ℝ)
      | some a => if a = 0 then 0.8 else a
    let mainCmds : List Cmd :=
      if segmentType = SegType.arc then
        let endH := radToDeg (-cur.h)
        let travelDist := match cur.arcControlPoint with
          | none => dist
          | some cp => bezApproxLen10 ⟨prev.x, prev.y⟩ cp ⟨cur.x, cur.y⟩
        let interior := match cur.arcControlPoint with
          | none => []
          | some cp => arcInteriorSamples arcSamples ⟨prev.x, prev.y⟩ cp ⟨cur.x, cur.y⟩
        [Cmd.arc (jsToFixed2 travelDist) (jsToFixed2 arcSpeed)
          (((0 : ℝ), round ((0 : ℝ))) :: interior ++ [((1 : ℝ), round endH)])]
      else if segmentType = SegType.strafe then
        [Cmd.strafe (jsToFixed2 dist) (round segAngleDeg)]
      else
        [Cmd.turn (round segAngleDeg), Cmd.drive (jsToFixed2 dist) (round segAngleDeg)]
    let wpTurnCmds : List Cmd :=
      if 0.0001 < |cur.h| ∧ segmentType ≠ SegType.arc then
        let wh := radToDeg (-cur.h)
        if 1.0 < |wrapDeg (wh - segAngleDeg)| then [Cmd.turn (round wh)] else []
      else []
    let actionCmds : List Cmd :=
      if cur.isAction then
        match cur.actionId with
        | none => []
        | some id =>
            if id = 0 then []
            else match markers.find? (fun m => m.id == id) with
              | none => []
              | some a => [Cmd.call a.name a.args]
      else []
    mainCmds ++ wpTurnCmds ++ actionCmds

/-- `generateRobotOrientedCode` as the list of commands it prints: the
unconditional `turnPID(0)` header line, then the per-segment commands over
consecutive pose pairs of `[start].concat(waypoints)`. -/
def genRobotCmds (markers : List Marker) (arcSamples : ℕ) (start : Pose)
    (waypoints : List Waypoint) : List Cmd :=
  let pts := startAsWp start :: waypoints
  Cmd.turn 0 ::
    ((pts.zip pts.tail).map (fun pc => segRobotCmds markers arcSamples pc.1 pc.2)).flatten

/-- C3: the claim as amended.  The first command emitted by the
robot-oriented generator is always `turnPID(0)` — the robot-relative start
heading — whatever value `start.h` holds (not a turn to the negated-degrees
value of `start.h`, which the original claim asserts). -/
theorem c3_theorem (markers : List Marker) (arcSamples : ℕ) (start : Pose)
    (waypoints : List Waypoint) :
    (genRobotCmds markers arcSamples start waypoints).head? = some (Cmd.turn 0) :=
  rfl

/-- C3 counterexample to the original claim: with `start.h = π/2` the start
heading in the negated-degrees program convention is `-90`, but the first
emitted command is `turnPID(0)`, not a turn to `-90`. -/
theorem c3_counterexample :
    (genRobotCmds [] 5 ⟨0, 0, Real.pi / 2⟩ []).head? ≠
      some (Cmd.turn (round (radToDeg (-(Real.pi / 2 : ℝ))))) := by
  have h2 : radToDeg (-(Real.pi / 2 : ℝ)) = -90 := by
    unfold radToDeg
    rw [div_eq_iff Real.pi_ne_zero]
    ring
  have h3 : round ((-90 : ℝ)) = (-90 : ℤ) := by
    rw [show (-90 : ℝ) = ((-90 : ℤ) : ℝ) by norm_num, round_intCast]
  rw [h2, h3, show (genRobotCmds [] 5 ⟨0, 0, Real.pi / 2⟩ []).head? =
    some (Cmd.turn 0) from rfl]
  simp

/-- Shared reduction of the per-segment generator on an arc waypoint that
carries an explicit control point. -/
lemma segRobotCmds_arc (markers : List Marker) (arcSamples : ℕ)
    (prev cur : Waypoint) (cp : Point) (sp : ℝ)
    (htype : cur.segmentType = some SegType.arc)
    (hcp : cur.arcControlPoint = some cp)
    (hsp : cur.arcSpeed = some sp) (hsp0 : sp ≠ 0)
    (hact : cur.isAction = false)
    (hdist : ¬ jsHypot (cur.x - prev.x) (cur.y - prev.y) < 0.001) :
    segRobotCmds markers arcSamples prev cur =
      [Cmd.arc (jsToFixed2 (bezApproxLen10 ⟨prev.x, prev.y⟩ cp ⟨cur.x, cur.y⟩))
        (jsToFixed2 sp)
        (((0 : ℝ), round ((0 : ℝ))) ::
          arcInteriorSamples arcSamples ⟨prev.x, prev.y⟩ cp ⟨cur.x, cur.y⟩ ++
          [((1 : ℝ), round (radToDeg (-cur.h)))])] := by
  unfold segRobotCmds
  rw [if_neg hdist]
  simp only [htype, hcp, hsp, hact, Option.getD_some]
  rw [if_neg hsp0]
  simp

/-- C5: the claim as amended.  For every arc waypoint that carries an
explicit control point (and a non-zero `arcSpeed`, is not an action, and
spans at least the 0.001 distance threshold), the generator emits exactly
one arc command whose total length is the 10-step chord approximation of
the quadratic Bezier length, and whose heading-sample list consists of an
explicit `t = 0` sample equal to 0 degrees, `arcSamples - 1` interior
samples (one fewer than the configured count — 4 by default, not the 5 of
the original claim) computed from the Bezier first derivative, and a
`t = 1` sample equal to the rounded negated target heading.  (An arc
waypoint without a cached control point instead gets the straight-line
distance and no interior samples.) -/
theorem c5_theorem (markers : List Marker) (arcSamples : ℕ)
    (prev cur : Waypoint) (cp : Point) (sp : ℝ)
    (htype : cur.segmentType = some SegType.arc)
    (hcp : cur.arcControlPoint = some cp)
    (hsp : cur.arcSpeed = some sp) (hsp0 : sp ≠ 0)
    (hact : cur.isAction = false)
    (hdist : ¬ jsHypot (cur.x - prev.x) (cur.y - prev.y) < 0.001) :
    segRobotCmds markers arcSamples prev cur =
      [Cmd.arc (jsToFixed2 (bezApproxLen10 ⟨prev.x, prev.y⟩ cp ⟨cur.x, cur.y⟩))
        (jsToFixed2 sp)
        (((0 : ℝ), round ((0 : ℝ))) ::
          arcInteriorSamples arcSamples ⟨prev.x, prev.y⟩ cp ⟨cur.x, cur.y⟩ ++
          [((1 : ℝ), round (radToDeg (-cur.h)))])] ∧
    (arcInteriorSamples arcSamples ⟨prev.x, prev.y⟩ cp ⟨cur.x, cur.y⟩).length =
      arcSamples - 1 := by
  refine ⟨segRobotCmds_arc markers arcSamples prev cur cp sp htype hcp hsp hsp0
    hact hdist, ?_⟩
  unfold arcInteriorSamples
  rw [List.length_map, List.length_range']

/-- C5 witness: the amended claim applied to a concrete arc segment from
`(0,0)` to `(1,0)` with control point `(0.5, 0.3)` and the default sample
count 5. -/
theorem c5_witness :
    segRobotCmds [] 5 (startAsWp ⟨0, 0, 0⟩)
        ⟨1, 0, 0, some SegType.arc, some 0.8, some ⟨0.5, 0.3⟩, false, none⟩ =
      [Cmd.arc (jsToFixed2 (bezApproxLen10 ⟨0, 0⟩ ⟨0.5, 0.3⟩ ⟨1, 0⟩))
        (jsToFixed2 0.8)
        (((0 : ℝ), round ((0 : ℝ))) ::
          arcInteriorSamples 5 ⟨0, 0⟩ ⟨0.5, 0.3⟩ ⟨1, 0⟩ ++
          [((1 : ℝ), round (radToDeg (-(0 : ℝ))))])] ∧
    (arcInteriorSamples 5 ⟨0, 0⟩ ⟨0.5, 0.3⟩ ⟨1, 0⟩).length = 4 := by
  have h := c5_theorem [] 5 (startAsWp ⟨0, 0, 0⟩)
    ⟨1, 0, 0, some SegType.arc, some 0.8, some ⟨0.5, 0.3⟩, false, none⟩
    ⟨0.5, 0.3⟩ 0.8 rfl rfl rfl (by norm_num) rfl
    (by
      simp only [startAsWp, jsHypot]
      norm_num [Real.sqrt_one])
  simpa using h

/-- Count of `(parameter, headingDegrees)` samples carried by a command
(zero for the non-arc commands). -/
def cmdArcSampleCount : Cmd → ℕ
  | Cmd.arc _ _ samples => samples.length
  | _ => 0

/-- C5 counterexample to the original claim: with the default configured
sample count 5, the arc command generated for a concrete arc waypoint
carries 6 heading samples in total — 4 interior ones plus the two brackets
— not the `5 + 2` the claim requires. -/
theorem c5_counterexample :
    (genRobotCmds [] 5 ⟨0, 0, 0⟩
        [⟨1, 0, 0, some SegType.arc, some 0.8, some ⟨0.5, 0.3⟩, false, none⟩]).map
      cmdArcSampleCount = [0, 6] ∧ (6 : ℕ) ≠ 5 + 2 := by
  constructor
  · have h := segRobotCmds_arc [] 5 (startAsWp ⟨0, 0, 0⟩)
      ⟨1, 0, 0, some SegType.arc, some 0.8, some ⟨0.5, 0.3⟩, false, none⟩
      ⟨0.5, 0.3⟩ 0.8 rfl rfl rfl (by norm_num) rfl
      (by
        simp only [startAsWp, jsHypot]
        norm_num [Real.sqrt_one])
    simp only [genRobotCmds, List.tail_cons, List.zip_cons_cons,
      List.zip_nil_right, List.map_cons, List.map_nil, List.flatten_cons,
      List.flatten_nil, List.append_nil]
    rw [h]
    simp only [List.map_cons, List.map_nil, cmdArcSampleCount]
    unfold arcInteriorSamples
    simp
  · decide

/-! ## Field-oriented code generator and the field-pose decoding -/

/-- The numeric content of one printed field-oriented pose literal
`new Pose2d(cmX, cmY, Rotation2d.fromDegrees(deg))`: coordinates scaled
to centimeters with `toFixed(1)`, heading negated, converted to degrees and
`Math.round`ed. -/
def genFieldPoseLit (x y h : ℝ) : ℝ × ℝ × ℤ :=
  (jsToFixed1 (x * 100), jsToFixed1 (y * 100), round (radToDeg (-h)))

/-- `generateFieldOrientedCode` modelled as the list of pose literals it
prints: the start pose first, then every non-action waypoint in order. -/
def genFieldPoses (start : Pose) (waypoints : List Waypoint) : List (ℝ × ℝ × ℤ) :=
  genFieldPoseLit start.x start.y start.h ::
    (waypoints.filter (fun wp => !wp.isAction)).map
      (fun wp => genFieldPoseLit wp.x wp.y wp.h)

/-- The `createMarkers()` part of `generateFieldOrientedCode`: for each
action waypoint (in order), the rounded percentage
`(countOfRealWaypointsSoFar / totalRealWaypoints) * 100` paired with the
marker name, skipping actions whose marker cannot be found. -/
def genFieldMarkerPercents (markers : List Marker)
    (waypoints : List Waypoint) : List (ℝ × String) :=
  let total := (waypoints.filter (fun wp => !wp.isAction)).length
  (waypoints.foldl
    (fun (acc : ℕ × List (ℝ × String)) wp =>
      if !wp.isAction then (acc.1 + 1, acc.2)
      else match wp.actionId with
        | none => acc
        | some id =>
            match markers.find? (fun m => m.id == id) with
            | none => acc
            | some m =>
                (acc.1, acc.2 ++ [(jsToFixed1 ((acc.1 : ℝ) / (total : ℝ) * 100), m.name)]))
    (0, [])).2

/-- The waypoint built by `parseFieldOrientedCode` for every pose literal
after the first: centimeters back to meters, heading `-angle` in radians,
kind `drive`, speed 0.8. -/
def decodedDriveWp (x y a : ℝ) : Waypoint :=
  ⟨x / 100, y / 100, degToRad (-a), some SegType.drive, some 0.8, none, false, none⟩

/-- The state effect of `parseFieldOrientedCode`'s extraction loop on the
list of parsed pose triples: the first becomes the start pose, every later
one is pushed as a `drive` waypoint. -/
def applyFieldPoses (ps : List (ℝ × ℝ × ℝ)) (st : AppState) : AppState :=
  match ps with
  | [] => st
  | (x, y, a) :: rest =>
      { st with
        start := ⟨x / 100, y / 100, degToRad (-a)⟩
        waypoints := st.waypoints ++ rest.map (fun p => decodedDriveWp p.1 p.2.1 p.2.2) }

/-- A generated pose literal as the decoder's regex delivers it back
(`parseFloat` of the printed integer degree field). -/
def litToParsed (p : ℝ × ℝ × ℤ) : ℝ × ℝ × ℝ := (p.1, p.2.1, (p.2.2 : ℝ))

lemma roundtrip_coord (x : ℝ) : |jsToFixed1 (x * 100) / 100 - x| ≤ 1e-3 := by
  unfold jsToFixed1
  have h := abs_sub_round (x * 100 * 10)
  have heq : (round (x * 100 * 10) : ℝ) / 10 / 100 - x =
      ((round (x * 100 * 10) : ℝ) - x * 100 * 10) / 1000 := by ring
  rw [heq, abs_div, show |(1000 : ℝ)| = 1000 by norm_num,
    div_le_iff₀ (by norm_num : (0 : ℝ) < 1000), abs_sub_comm]
  linarith

lemma roundtrip_heading (h : ℝ) :
    |degToRad (-((round (radToDeg (-h)) : ℤ) : ℝ)) - h| ≤ degToRad 1 := by
  have hne := Real.pi_ne_zero
  set u := radToDeg (-h) with hu
  have hh : h = -(u * Real.pi / 180) := by
    rw [hu]; unfold radToDeg; field_simp; ring
  have hr : |u - ((round u : ℤ) : ℝ)| ≤ 1 / 2 := abs_sub_round u
  have hdiff : degToRad (-((round u : ℤ) : ℝ)) - h =
      (u - ((round u : ℤ) : ℝ)) * (Real.pi / 180) := by
    rw [hh]; unfold degToRad; ring
  rw [hdiff, abs_mul,
    abs_of_pos (by positivity : (0 : ℝ) < Real.pi / 180)]
  unfold degToRad
  have hp : (0 : ℝ) < Real.pi / 180 := by positivity
  nlinarith [abs_nonneg (u - ((round u : ℤ) : ℝ))]

/-- C2: the round trip, as claimed.  For a Path Model whose waypoints are
all non-action `drive` segments and whose start has a non-zero heading,
feeding the pose literals printed by the field-oriented generator back
through the field-oriented decoding reproduces the start pose and every
waypoint position within `1e-3` meters and every heading within 1 degree,
with every decoded waypoint again a `drive` waypoint. -/
theorem c2_theorem (start : Pose) (wps : List Waypoint) (st0 : AppState)
    (hact : ∀ wp ∈ wps, wp.isAction = false)
    (_hdrive : ∀ wp ∈ wps, wp.segmentType = some SegType.drive)
    (hst : st0.waypoints = [])
    (_hh : start.h ≠ 0) :
    |(applyFieldPoses ((genFieldPoses start wps).map litToParsed) st0).start.x
      - start.x| ≤ 1e-3 ∧
    |(applyFieldPoses ((genFieldPoses start wps).map litToParsed) st0).start.y
      - start.y| ≤ 1e-3 ∧
    |(applyFieldPoses ((genFieldPoses start wps).map litToParsed) st0).start.h
      - start.h| ≤ degToRad 1 ∧
    (applyFieldPoses ((genFieldPoses start wps).map litToParsed) st0).waypoints.length
      = wps.length ∧
    (∀ i, i < wps.length →
      ((applyFieldPoses ((genFieldPoses start wps).map litToParsed) st0).waypoints.getD i default).segmentType
        = some SegType.drive ∧
      |((applyFieldPoses ((genFieldPoses start wps).map litToParsed) st0).waypoints.getD i default).x
        - (wps.getD i default).x| ≤ 1e-3 ∧
      |((applyFieldPoses ((genFieldPoses start wps).map litToParsed) st0).waypoints.getD i default).y
        - (wps.getD i default).y| ≤ 1e-3 ∧
      |((applyFieldPoses ((genFieldPoses start wps).map litToParsed) st0).waypoints.getD i default).h
        - (wps.getD i default).h| ≤ degToRad 1) := by
  have hfilter : wps.filter (fun wp => !wp.isAction) = wps := by
    rw [List.filter_eq_self]
    intro wp hw
    rw [hact wp hw]
    rfl
  have hout : applyFieldPoses ((genFieldPoses start wps).map litToParsed) st0 =
      { st0 with
        start := ⟨jsToFixed1 (start.x * 100) / 100, jsToFixed1 (start.y * 100) / 100,
          degToRad (-((round (radToDeg (-start.h)) : ℤ) : ℝ))⟩
        waypoints := st0.waypoints ++ wps.map (fun wp =>
          decodedDriveWp (jsToFixed1 (wp.x * 100)) (jsToFixed1 (wp.y * 100))
            ((round (radToDeg (-wp.h)) : ℤ) : ℝ)) } := by
    simp only [genFieldPoses, hfilter, List.map_cons, List.map_map,
      applyFieldPoses, litToParsed, genFieldPoseLit]
    rfl
  rw [hout, hst]
  refine ⟨roundtrip_coord start.x, roundtrip_coord start.y,
    roundtrip_heading start.h, by simp, ?_⟩
  intro i hi
  have hmi : i < (wps.map (fun wp =>
      decodedDriveWp (jsToFixed1 (wp.x * 100)) (jsToFixed1 (wp.y * 100))
        ((round (radToDeg (-wp.h)) : ℤ) : ℝ))).length := by
    simpa using hi
  simp only [List.nil_append]
  rw [List.getD_eq_getElem _ _ hmi, List.getElem_map,
    List.getD_eq_getElem _ _ hi]
  exact ⟨rfl, roundtrip_coord _, roundtrip_coord _, roundtrip_heading _⟩

/-- C2 witness: the round trip applied to the concrete model with start
`(0, 0, 1 rad)` and one drive waypoint at `(1, 0)`, decoded into the empty
state. -/
theorem c2_witness :
    |(applyFieldPoses ((genFieldPoses ⟨0, 0, 1⟩
        [⟨1, 0, 0, some SegType.drive, some 0.8, none, false, none⟩]).map litToParsed)
        ⟨[], [], ⟨0, 0, 0⟩, none, [], 1⟩).start.h - (Pose.mk 0 0 1).h| ≤ degToRad 1 ∧
    (applyFieldPoses ((genFieldPoses ⟨0, 0, 1⟩
        [⟨1, 0, 0, some SegType.drive, some 0.8, none, false, none⟩]).map litToParsed)
        ⟨[], [], ⟨0, 0, 0⟩, none, [], 1⟩).waypoints.length = 1 := by
  have h := c2_theorem ⟨0, 0, 1⟩
    [⟨1, 0, 0, some SegType.drive, some 0.8, none, false, none⟩]
    ⟨[], [], ⟨0, 0, 0⟩, none, [], 1⟩
    (by intro wp hw; simp at hw; rw [hw])
    (by intro wp hw; simp at hw; rw [hw])
    rfl one_ne_zero
  exact ⟨h.2.2.1, h.2.2.2.1⟩

/-! ## Code decoder: string scanning -/

/-- The suffix of `hay` just after the first occurrence of `needle`
(`none` when `needle` does not occur); the substring search behind
JavaScript `includes` and the scanners. -/
def afterSub (needle : List Char) : List Char → Option (List Char)
  | [] => if needle.isEmpty then some [] else none
  | c :: t =>
      if needle.isPrefixOf (c :: t) then some ((c :: t).drop needle.length)
      else afterSub needle t

/-- `s.includes(sub)` from JavaScript. -/
def jsIncludes (s sub : String) : Bool := (afterSub sub.data s.data).isSome

/-- Numeric value of a digit string. -/
def digitsVal (ds : List Char) : ℕ :=
  ds.foldl (fun a c => a * 10 + (c.toNat - '0'.toNat)) 0

/-- Scanner for the number regex `-?\d+\.?\d*`: optional minus, at least
one digit, optional point and fraction digits.  Returns the value and the
rest of the input. -/
def parseNumQ (l : List Char) : Option (ℚ × List Char) :=
  let (neg, l1) := match l with
    | '-' :: t => (true, t)
    | _ => (false, l)
  let ds := l1.takeWhile Char.isDigit
  if ds.isEmpty then none
  else
    let l2 := l1.drop ds.length
    let (fr, l3) : ℚ × List Char := match l2 with
      | '.' :: t =>
          let fs := t.takeWhile Char.isDigit
          ((digitsVal fs : ℚ) / (10 : ℚ) ^ fs.length, t.drop fs.length)
      | _ => ((0 : ℚ), l2)
    let v : ℚ := (digitsVal ds : ℚ) + fr
    some (if neg then -v else v, l3)

/-- Expect one literal character. -/
def expectChar (c : Char) : List Char → Option (List Char)
  | [] => none
  | c' :: t => if c' = c then some t else none

/-- After `Pose2d(`, scan `num , \s* num ,` then (lazily) up to
`Rotation2d`, then either `.fromDegrees(num)` or `(num)` and the closing
parenthesis — the body of the decoder's pose regex. -/
def parsePoseTail (l : List Char) : Option ((ℚ × ℚ × ℚ) × List Char) :=
  match parseNumQ l with
  | none => none
  | some (x, l1) =>
    match expectChar ',' l1 with
    | none => none
    | some l2 =>
      match parseNumQ (l2.dropWhile Char.isWhitespace) with
      | none => none
      | some (y, l4) =>
        match expectChar ',' l4 with
        | none => none
        | some l5 =>
          match afterSub "Rotation2d".data l5 with
          | none => none
          | some l6 =>
            let angleTail : Option (ℚ × List Char) :=
              if (".fromDegrees(".data).isPrefixOf l6 then
                parseNumQ (l6.drop ".fromDegrees(".data.length)
              else match l6 with
                | '(' :: t => parseNumQ t
                | _ => none
            match angleTail with
            | none => none
            | some (a, l7) =>
              match expectChar ')' l7 with
              | none => none
              | some l8 =>
                match expectChar ')' l8 with
                | none => none
                | some l9 => some ((x, y, a), l9)

/-- The decoder's global pose-regex scan: find each `Pose2d(` occurrence
and extract its `(cm, cm, deg)` triple (fuel-driven recursion over the
input length). -/
def scanFieldPoses (fuel : ℕ) (l : List Char) : List (ℝ × ℝ × ℝ) :=
  match fuel with
  | 0 => []
  | f + 1 =>
    match afterSub "Pose2d(".data l with
    | none => []
    | some l1 =>
      match parsePoseTail l1 with
      | none => scanFieldPoses f l1
      | some ((x, y, a), l2) =>
          ((x : ℝ), (y : ℝ), (a : ℝ)) :: scanFieldPoses f l2

/-- `parseFieldOrientedCode(code)` from the source: extract every pose
literal and commit them (first literal to `start`, the rest as `drive`
waypoints). -/
def parseFieldOrientedCode (code : String) (st : AppState) : AppState :=
  applyFieldPoses (scanFieldPoses (code.data.length + 1) code.data) st

/-- Scanner for `\(\s*num\s*,\s*num\s*\)` (an argument pair). -/
def parsePairParen (l : List Char) : Option ((ℚ × ℚ) × List Char) :=
  match l with
  | '(' :: t =>
    match parseNumQ (t.dropWhile Char.isWhitespace) with
    | none => none
    | some (a, t2) =>
      match t2.dropWhile Char.isWhitespace with
      | ',' :: t4 =>
        match parseNumQ (t4.dropWhile Char.isWhitespace) with
        | none => none
        | some (b, t6) =>
          match t6.dropWhile Char.isWhitespace with
          | ')' :: t8 => some ((a, b), t8)
          | _ => none
      | _ => none
  | _ => none

/-- Scanner for `name\s*\(\s*num\s*\)` anywhere in a line (the
`turnPID` regex). -/
def findCmd1 (name : String) (l : List Char) : Option ℚ :=
  match afterSub name.data l with
  | none => none
  | some l1 =>
    match l1.dropWhile Char.isWhitespace with
    | '(' :: t =>
      match parseNumQ (t.dropWhile Char.isWhitespace) with
      | none => none
      | some (v, t2) =>
        match t2.dropWhile Char.isWhitespace with
        | ')' :: _ => some v
        | _ => none
    | _ => none

/-- Scanner for `name\s*\(\s*num\s*,\s*num\s*\)` anywhere in a line (the
`drivePID`/`strafePID` regexes). -/
def findCmd2 (name : String) (l : List Char) : Option (ℚ × ℚ) :=
  match afterSub name.data l with
  | none => none
  | some l1 => ((parsePairParen (l1.dropWhile Char.isWhitespace)).map Prod.fst)

/-- Scanner for the arc opening `arc\s*\(\s*num\s*,\s*num\s*,`. -/
def findArcHead (l : List Char) : Option (ℚ × ℚ) :=
  match afterSub "arc".data l with
  | none => none
  | some l1 =>
    match l1.dropWhile Char.isWhitespace with
    | '(' :: t =>
      match parseNumQ (t.dropWhile Char.isWhitespace) with
      | none => none
      | some (a, t2) =>
        match t2.dropWhile Char.isWhitespace with
        | ',' :: t4 =>
          match parseNumQ (t4.dropWhile Char.isWhitespace) with
          | none => none
          | some (b, t6) =>
            match t6.dropWhile Char.isWhitespace with
            | ',' :: _ => some (a, b)
            | _ => none
        | _ => none
    | _ => none

/-- Collect every `.at(num, num)` sample in the joined arc body (the
decoder's global `.at` regex). -/
def collectAts (fuel : ℕ) (l : List Char) : List (ℚ × ℚ) :=
  match fuel with
  | 0 => []
  | f + 1 =>
    match afterSub ".at".data l with
    | none => []
    | some l1 =>
      match parsePairParen (l1.dropWhile Char.isWhitespace) with
      | none => collectAts f l1
      | some (p, l2) => p :: collectAts f l2

/-- The line loop of `parseRobotOrientedCode`: a running cursor starting at
the existing start position, `turnPID` lines consumed without effect (the
tracked heading is write-only in the source), `drivePID`/`strafePID` lines
advancing the cursor and emitting a waypoint, and multi-line `arc(...)`
commands consuming every body line up to the one containing `);` and
advancing the cursor along the first sample's heading. -/
def robotLoop : ℕ → List String → ℝ → ℝ → List Waypoint → List Waypoint
  | 0, _, _, _, acc => acc
  | _, [], _, _, acc => acc
  | f + 1, ln :: rest, cx, cy, acc =>
    let line := ln.trim
    if ("//".data.isPrefixOf line.data) ∨ line = "" then
      robotLoop f rest cx cy acc
    else match findCmd1 "turnPID" line.data with
    | some _ => robotLoop f rest cx cy acc
    | none =>
      match findCmd2 "drivePID" line.data with
      | some (d, hd) =>
          let cx' := cx + (d : ℝ) * Real.cos (degToRad ((hd : ℝ)))
          let cy' := cy + (d : ℝ) * Real.sin (degToRad ((hd : ℝ)))
          robotLoop f rest cx' cy'
            (acc ++ [⟨cx', cy', degToRad (-(hd : ℝ)), some SegType.drive,
              some 0.8, none, false, none⟩])
      | none =>
        match findCmd2 "strafePID" line.data with
        | some (d, hd) =>
            let cx' := cx + (d : ℝ) * Real.cos (degToRad ((hd : ℝ)))
            let cy' := cy + (d : ℝ) * Real.sin (degToRad ((hd : ℝ)))
            robotLoop f rest cx' cy'
              (acc ++ [⟨cx', cy', degToRad (-(hd : ℝ)), some SegType.strafe,
                some 0.8, none, false, none⟩])
        | none =>
          match findArcHead line.data with
          | some (dist, sp) =>
              let body := rest.takeWhile (fun s => !(jsIncludes s ");"))
              let rest1 := rest.drop body.length
              let arcChars := (String.intercalate "\n" (ln :: (body ++ rest1.take 1))).data
              let ats := collectAts (arcChars.length + 1) arcChars
              let startH : ℚ := if 2 ≤ ats.length then (ats.headD (0, 0)).2 else 0
              let endH : ℚ := if 2 ≤ ats.length then (ats.getLastD (0, 0)).2 else 0
              let cx' := cx + (dist : ℝ) * Real.cos (degToRad ((startH : ℝ)))
              let cy' := cy + (dist : ℝ) * Real.sin (degToRad ((startH : ℝ)))
              robotLoop f (rest1.drop 1) cx' cy'
                (acc ++ [⟨cx', cy', degToRad (-(endH : ℝ)), some SegType.arc,
                  some (sp : ℝ), none, false, none⟩])
          | none => robotLoop f rest cx cy acc

/-- `parseRobotOrientedCode(code)` from the source.  Its initial
start-handling is a no-op (it only re-assigns the origin to itself), so the
start pose is kept and used as the cursor origin. -/
def parseRobotOrientedCode (code : String) (st : AppState) : AppState :=
  let lines := (code.splitOn "\n").filter (fun l => 0 < l.trim.length)
  { st with waypoints :=
      st.waypoints ++ robotLoop (lines.length + 1) lines st.start.x st.start.y [] }

/-- Format sniffing: `code.includes('Pose2d') || code.includes('ArrayList')`. -/
def isFieldOrientedCode (code : String) : Bool :=
  jsIncludes code "Pose2d" || jsIncludes code "ArrayList"

/-- Format sniffing for the robot-oriented grammar. -/
def isRobotOrientedCode (code : String) : Bool :=
  jsIncludes code "drivePID" || jsIncludes code "strafePID" ||
    jsIncludes code "turnPID" || jsIncludes code "arc("

/-- The tail of `decodeAndVisualize` after a successful parse: restore the
previous start when the decoded start is the origin identity and the
previous one was not, then select waypoint 0 whenever anything was decoded
(or the start is away from the origin). -/
def decodeSelect (st4 : AppState) : AppState :=
  if 0 < st4.waypoints.length ∨
      (st4.start.x ≠ 0 ∨ st4.start.y ≠ 0 ∨ st4.start.h ≠ 0)
  then { st4 with selectedSegmentIdx := some 0 } else st4

def decodeFinish (prevStart : Pose) (st3 : AppState) : AppState :=
  decodeSelect
    (if st3.start.x = 0 ∧ st3.start.y = 0 ∧ st3.start.h = 0 ∧
        (prevStart.x ≠ 0 ∨ prevStart.y ≠ 0 ∨ prevStart.h ≠ 0)
     then { st3 with start := prevStart } else st3)

/-- `decodeAndVisualize()` from the source: bail out on blank input,
remember the previous start, `saveState()`, clear waypoints and markers,
sniff the format, parse with the matching grammar and finish — or, when
neither grammar is recognized, report and return with the path already
cleared. -/
def decodeAndVisualize (code : String) (st : AppState) : AppState :=
  if code.data.all Char.isWhitespace then st
  else
    let prevStart := st.start
    let st1 := saveState st
    let st2 := { st1 with waypoints := [], markers := [] }
    if isFieldOrientedCode code then
      decodeFinish prevStart (parseFieldOrientedCode code st2)
    else if isRobotOrientedCode code then
      decodeFinish prevStart (parseRobotOrientedCode code st2)
    else st2

/-! ## Decoder theorems -/

/-- Shared reduction: an unrecognized format leaves the decoder in the
already-cleared state (the clear happens before the sniff). -/
lemma decode_unrecognized_eq (code : String) (st : AppState)
    (hb : code.data.all Char.isWhitespace = false)
    (hf : isFieldOrientedCode code = false)
    (hr : isRobotOrientedCode code = false) :
    decodeAndVisualize code st =
      { saveState st with waypoints := [], markers := [] } := by
  unfold decodeAndVisualize
  simp only [hb, hf, hr, Bool.false_eq_true, if_false]

lemma applyFieldPoses_history (ps : List (ℝ × ℝ × ℝ)) (st : AppState) :
    (applyFieldPoses ps st).history = st.history := by
  cases ps with
  | nil => rfl
  | cons p rest => rcases p with ⟨x, y, a⟩; rfl

lemma decodeSelect_history (st4 : AppState) :
    (decodeSelect st4).history = st4.history := by
  unfold decodeSelect
  split_ifs <;> rfl

lemma decodeFinish_history (p : Pose) (st3 : AppState) :
    (decodeFinish p st3).history = st3.history := by
  unfold decodeFinish
  rw [decodeSelect_history]
  split_ifs <;> rfl

lemma saveState_getLast (st : AppState) :
    (saveState st).history.getLast? = some (snapOf st) := by
  simp only [saveState]
  by_cases hc : 20 < (st.history ++ [snapOf st]).length
  · rw [if_pos hc]
    have hne : st.history ≠ [] := by
      intro h0
      rw [h0] at hc
      simp at hc
    rw [List.tail_append_singleton_of_ne_nil hne, List.getLast?_concat]
  · rw [if_neg hc, List.getLast?_concat]

/-- Shared: every non-blank decode pushes exactly the one `saveState`
snapshot, whatever branch runs afterwards. -/
lemma decode_history (code : String) (st : AppState)
    (hb : code.data.all Char.isWhitespace = false) :
    (decodeAndVisualize code st).history = (saveState st).history := by
  unfold decodeAndVisualize
  simp only [hb, Bool.false_eq_true, if_false]
  by_cases hf : isFieldOrientedCode code = true
  · rw [if_pos hf, decodeFinish_history]
    exact applyFieldPoses_history _ _
  · rw [if_neg hf]
    by_cases hr : isRobotOrientedCode code = true
    · rw [if_pos hr, decodeFinish_history]
      rfl
    · rw [if_neg hr]

/-- C10: the claim as written.  Every decode attempt that reaches the
destructive clear (i.e. every non-blank input) pushes exactly one history
snapshot of the prior `{waypoints, markers, start, selection}` before the
clear, and no later decode step touches the history, so a single `undo()`
after the decode — successful, failed, or unrecognized-format — restores
the waypoints, markers, start and selection to their pre-decode values. -/
theorem c10_theorem (code : String) (st : AppState)
    (hb : code.data.all Char.isWhitespace = false) :
    (decodeAndVisualize code st).history = (saveState st).history ∧
    (undo (decodeAndVisualize code st)).waypoints = st.waypoints ∧
    (undo (decodeAndVisualize code st)).markers = st.markers ∧
    (undo (decodeAndVisualize code st)).start = st.start ∧
    (undo (decodeAndVisualize code st)).selectedSegmentIdx
      = st.selectedSegmentIdx := by
  have hh := decode_history code st hb
  have hlast : (decodeAndVisualize code st).history.getLast? = some (snapOf st) := by
    rw [hh]
    exact saveState_getLast st
  refine ⟨hh, ?_, ?_, ?_, ?_⟩ <;> simp [undo, hlast, snapOf]

/-- A concrete populated application state used by the decoder claims:
one drive waypoint, one marker, a non-origin start, waypoint 0 selected. -/
def demoState : AppState :=
  ⟨[⟨0.5, 0.5, 0, some SegType.drive, some 0.8, none, false, none⟩],
    [⟨1, 0.2, 0.3, "intake", ""⟩], ⟨0.1, 0.2, 0.3⟩, some 0, [], 2⟩

/-- C10 witness: undoing right after decoding the unparseable input
`"hello"` restores the concrete populated state. -/
theorem c10_witness :
    (undo (decodeAndVisualize "hello" demoState)).waypoints = demoState.waypoints ∧
    (undo (decodeAndVisualize "hello" demoState)).markers = demoState.markers ∧
    (undo (decodeAndVisualize "hello" demoState)).start = demoState.start ∧
    (undo (decodeAndVisualize "hello" demoState)).selectedSegmentIdx
      = demoState.selectedSegmentIdx := by
  have h := c10_theorem "hello" demoState (by decide)
  exact ⟨h.2.1, h.2.2.1, h.2.2.2.1, h.2.2.2.2⟩

/-- C1: the claim as amended.  On input matching neither grammar the
decoder reports the unrecognized format and leaves the start pose, the
selection and the marker-id counter unchanged, but the waypoints and
markers have already been cleared (the destructive clear runs before the
format sniff); the pre-decode snapshot pushed onto the history is the only
way back. -/
theorem c1_theorem (code : String) (st : AppState)
    (hb : code.data.all Char.isWhitespace = false)
    (hf : isFieldOrientedCode code = false)
    (hr : isRobotOrientedCode code = false) :
    (decodeAndVisualize code st).waypoints = [] ∧
    (decodeAndVisualize code st).markers = [] ∧
    (decodeAndVisualize code st).start = st.start ∧
    (decodeAndVisualize code st).selectedSegmentIdx = st.selectedSegmentIdx ∧
    (decodeAndVisualize code st).nextMarkerId = st.nextMarkerId ∧
    (decodeAndVisualize code st).history = (saveState st).history := by
  rw [decode_unrecognized_eq code st hb hf hr]
  refine ⟨rfl, rfl, ?_, ?_, ?_, ?_⟩ <;> simp [saveState]

/-- C1 witness: the amended claim at the concrete unrecognizable input
`"hello"` over the populated state. -/
theorem c1_witness :
    (decodeAndVisualize "hello" demoState).waypoints = [] ∧
    (decodeAndVisualize "hello" demoState).start = demoState.start :=
  have h := c1_theorem "hello" demoState (by decide) (by decide) (by decide)
  ⟨h.1, h.2.2.1⟩

/-- C1 counterexample to the original claim: decoding the unrecognizable
input `"hello"` over a state holding one waypoint and one marker does not
leave the state unchanged — the waypoints and markers come out empty. -/
theorem c1_counterexample :
    (decodeAndVisualize "hello" demoState).waypoints = [] ∧
    demoState.waypoints.length = 1 ∧
    decodeAndVisualize "hello" demoState ≠ demoState := by
  have h := decode_unrecognized_eq "hello" demoState (by decide) (by decide)
    (by decide)
  refine ⟨by rw [h], rfl, ?_⟩
  rw [h]
  intro hc
  have hwp := congrArg AppState.waypoints hc
  simp [demoState] at hwp

/-- C9 counterexample to the original claim: the populated state satisfies
the selection invariant, but after decoding the unrecognized input
`"hello"` the waypoints are cleared while the selection still points at
index 0 — neither `null` nor in range. -/
theorem c9_counterexample :
    selOK demoState ∧ ¬ selOK (decodeAndVisualize "hello" demoState) := by
  constructor
  · exact Or.inr ⟨0, rfl, by simp [demoState]⟩
  · have h := decode_unrecognized_eq "hello" demoState (by decide) (by decide)
      (by decide)
    rw [h]
    intro hsel
    rcases hsel with h1 | ⟨i, hi, hlen⟩
    · simp [saveState, demoState] at h1
    · simp at hlen

/-! ## Simulator (robot mode) -/

/-- The simulator phases. -/
inductive SimPhase where
  | turn
  | drive
  | strafe
  | arc
  | wpTurn
deriving DecidableEq

/-- The local state of one simulation run. -/
structure SimState where
  seg : ℕ
  phase : SimPhase
  pos : Point
  heading : ℝ
  driveProgress : ℝ
  distanceTraveled : ℝ
  isSimulating : Bool

/-- `const points = [start].concat(waypoints)`. -/
def simPoints (app : AppState) : List Waypoint :=
  startAsWp app.start :: app.waypoints

/-- The record computed by `segInfo(i)`. -/
structure SegData where
  len : ℝ
  ang : ℝ
  a : Waypoint
  b : Waypoint
  segmentType : SegType

/-- `segInfo(i)` from the simulator. -/
def segInfo (pts : List Waypoint) (i : ℕ) : SegData :=
  let a := pts.getD i default
  let b := pts.getD (i + 1) default
  let dx := b.x - a.x
  let dy := b.y - a.y
  ⟨jsHypot dx dy, radToDeg (atan2 dy dx), a, b, b.segmentType.getD SegType.drive⟩

/-- `getArcControlPoint(segIdx)` from the simulator, with the waypoint
mutation it performs made explicit: when the arc waypoint has no cached
control point, the computed default is written back into the waypoint. -/
def getArcControlPoint (app : AppState) (segIdx : ℕ) : AppState × Option Point :=
  if segIdx < 1 ∨ app.waypoints.length ≤ segIdx then (app, none)
  else
    let wp := app.waypoints.getD segIdx default
    if wp.segmentType = some SegType.arc then
      match wp.arcControlPoint with
      | some cp => (app, some cp)
      | none =>
          let prevWp := if segIdx = 0 then startAsWp app.start
            else app.waypoints.getD (segIdx - 1) default
          let cp := computeDefaultArcControl ⟨prevWp.x, prevWp.y⟩ ⟨wp.x, wp.y⟩
          ({ app with waypoints :=
              app.waypoints.set segIdx { wp with arcControlPoint := some cp } },
            some cp)
    else (app, none)

/-- `Math.min(1, driveProgress / info.len || 1)`: a zero (or `NaN` from
`0/0`) quotient falls back to 1; division by zero with a positive numerator
gives JavaScript `Infinity`, whose `min` with 1 is also 1, matching Lean's
`x / 0 = 0` through the same fallback. -/
def jsFrac (dp len : ℝ) : ℝ :=
  let q := dp / len
  if q = 0 then 1 else min 1 q

/-- `driveSpeed` of the simulator (0.8 units/s). -/
def driveSpeedConst : ℝ := 0.8

/-- `turnSpeedDeg` of the simulator (120 deg/s). -/
def turnSpeedDegConst : ℝ := 120

/-- The trailing `if (seg >= points.length-1) isSimulating = false` check
at the end of every `step(dt)` call. -/
def stepFinish (pts : List Waypoint) (r : AppState × SimState) :
    AppState × SimState :=
  if pts.length - 1 ≤ r.2.seg then (r.1, { r.2 with isSimulating := false })
  else r

/-- One call of the simulator's `step(dt)` in robot mode (drawing removed;
the unused `headingDelta` of the arc phase dropped).  The model is threaded
through because the arc phase's `getArcControlPoint` can write a default
control point into the waypoint list. -/
def stepRobot (dt simSpeed : ℝ) (app : AppState) (s : SimState) :
    AppState × SimState :=
  if s.isSimulating = false then (app, s)
  else
    let pts := simPoints app
    if pts.length - 1 ≤ s.seg then (app, { s with isSimulating := false })
    else
      stepFinish pts (
        match s.phase with
        | SimPhase.turn =>
            let info := segInfo pts s.seg
            let target := wrapDeg info.ang
            let diff := wrapDeg (target - s.heading)
            let maxStep := turnSpeedDegConst * (dt / 1000) * simSpeed
            if |diff| ≤ 0.5 then
              if info.segmentType = SegType.strafe then
                (app, { s with
                  heading := wrapDeg (((round (target / 90) : ℤ) : ℝ) * 90)
                  phase := SimPhase.strafe
                  driveProgress := 0 })
              else if info.segmentType = SegType.arc then
                (app, { s with
                  heading := target
                  phase := SimPhase.arc
                  driveProgress := 0 })
              else
                (app, { s with
                  heading := target
                  phase := SimPhase.drive
                  driveProgress := 0 })
            else
              (app, { s with
                heading := s.heading + jsSign diff * min maxStep |diff| })
        | SimPhase.drive =>
            let info := segInfo pts s.seg
            let travel := driveSpeedConst * (dt / 1000) * simSpeed
            let dp := s.driveProgress + travel
            let frac := jsFrac dp info.len
            let s1 := { s with
              driveProgress := dp
              distanceTraveled := s.distanceTraveled + travel
              pos := (⟨info.a.x + (info.b.x - info.a.x) * frac,
                info.a.y + (info.b.y - info.a.y) * frac⟩ : Point)
              heading := info.ang }
            if 1 ≤ frac then
              if 0.0001 < |radToDeg (-(pts.getD (s.seg + 1) default).h)| then
                (app, { s1 with phase := SimPhase.wpTurn })
              else (app, { s1 with seg := s.seg + 1, phase := SimPhase.turn })
            else (app, s1)
        | SimPhase.strafe =>
            let info := segInfo pts s.seg
            let travel := driveSpeedConst * (dt / 1000) * simSpeed
            let dp := s.driveProgress + travel
            let frac := jsFrac dp info.len
            let s1 := { s with
              driveProgress := dp
              distanceTraveled := s.distanceTraveled + travel
              pos := (⟨info.a.x + (info.b.x - info.a.x) * frac,
                info.a.y + (info.b.y - info.a.y) * frac⟩ : Point) }
            if 1 ≤ frac then
              if 0.0001 < |radToDeg (-(pts.getD (s.seg + 1) default).h)| then
                (app, { s1 with phase := SimPhase.wpTurn })
              else (app, { s1 with seg := s.seg + 1, phase := SimPhase.turn })
            else (app, s1)
        | SimPhase.arc =>
            let info := segInfo pts s.seg
            let curWp := app.waypoints.getD s.seg default
            let travel := driveSpeedConst * (dt / 1000) * simSpeed
            let dp := s.driveProgress + travel
            let frac := jsFrac dp info.len
            let acp := getArcControlPoint app s.seg
            let controlPt := acp.2.getD
              (computeDefaultArcControl ⟨info.a.x, info.a.y⟩ ⟨info.b.x, info.b.y⟩)
            let bezPt := bezierPoint frac info.a.x info.a.y controlPt.x
              controlPt.y info.b.x info.b.y
            let startH := if s.seg = 0 then radToDeg (-app.start.h)
              else radToDeg (-(app.waypoints.getD (s.seg - 1) default).h)
            let endH := radToDeg (-curWp.h)
            let s1 := { s with
              driveProgress := dp
              distanceTraveled := s.distanceTraveled + travel
              pos := bezPt
              heading := wrapDeg (startH + (endH - startH) * frac) }
            if 1 ≤ frac then
              if 0.0001 < |radToDeg (-(pts.getD (s.seg + 1) default).h)| then
                (acp.1, { s1 with phase := SimPhase.wpTurn })
              else (acp.1, { s1 with seg := s.seg + 1, phase := SimPhase.turn })
            else (acp.1, s1)
        | SimPhase.wpTurn =>
            let target := wrapDeg (radToDeg (-(pts.getD (s.seg + 1) default).h))
            let diff := wrapDeg (target - s.heading)
            let maxStep := turnSpeedDegConst * (dt / 1000) * simSpeed
            if |diff| ≤ 0.5 then
              (app, { s with
                heading := target
                seg := s.seg + 1
                phase := SimPhase.turn })
            else
              (app, { s with
                heading := s.heading + jsSign diff * min maxStep |diff| }))

lemma stepFinish_snd_phase (pts : List Waypoint) (r : AppState × SimState) :
    (stepFinish pts r).2.phase = r.2.phase := by
  unfold stepFinish
  split_ifs <;> rfl

lemma stepFinish_snd_seg (pts : List Waypoint) (r : AppState × SimState) :
    (stepFinish pts r).2.seg = r.2.seg := by
  unfold stepFinish
  split_ifs <;> rfl

lemma stepFinish_fst (pts : List Waypoint) (r : AppState × SimState) :
    (stepFinish pts r).1 = r.1 := by
  unfold stepFinish
  split_ifs <;> rfl

/-- Shared: the transition taken when a primary motion phase (`drive`,
`strafe` or `arc`) completes its segment in this step. -/
lemma stepRobot_motion_complete (dt simSpeed : ℝ) (app : AppState)
    (s : SimState)
    (hrun : s.isSimulating = true)
    (hseg : s.seg < (simPoints app).length - 1)
    (hphase : s.phase = SimPhase.drive ∨ s.phase = SimPhase.strafe ∨
      s.phase = SimPhase.arc)
    (hfrac : 1 ≤ jsFrac (s.driveProgress + driveSpeedConst * (dt / 1000) * simSpeed)
      (segInfo (simPoints app) s.seg).len) :
    (0.0001 < |radToDeg (-((simPoints app).getD (s.seg + 1) default).h)| →
        (stepRobot dt simSpeed app s).2.phase = SimPhase.wpTurn ∧
        (stepRobot dt simSpeed app s).2.seg = s.seg) ∧
    (¬ 0.0001 < |radToDeg (-((simPoints app).getD (s.seg + 1) default).h)| →
        (stepRobot dt simSpeed app s).2.phase = SimPhase.turn ∧
        (stepRobot dt simSpeed app s).2.seg = s.seg + 1) := by
  obtain ⟨seg, phase, pos0, hdg, dp0, dtr, run⟩ := s
  simp only at hrun hseg hphase hfrac ⊢
  subst hrun
  unfold stepRobot
  simp only [Bool.true_eq_false, if_false]
  rw [if_neg (by omega : ¬ (simPoints app).length - 1 ≤ seg)]
  rcases hphase with h | h | h <;> subst h <;> dsimp only <;>
    rw [if_pos hfrac] <;>
    constructor <;> intro hw
  · rw [if_pos hw]
    rw [stepFinish_snd_phase, stepFinish_snd_seg]
    exact ⟨rfl, rfl⟩
  · rw [if_neg hw]
    rw [stepFinish_snd_phase, stepFinish_snd_seg]
    exact ⟨rfl, rfl⟩
  · rw [if_pos hw]
    rw [stepFinish_snd_phase, stepFinish_snd_seg]
    exact ⟨rfl, rfl⟩
  · rw [if_neg hw]
    rw [stepFinish_snd_phase, stepFinish_snd_seg]
    exact ⟨rfl, rfl⟩
  · rw [if_pos hw]
    rw [stepFinish_snd_phase, stepFinish_snd_seg]
    exact ⟨rfl, rfl⟩
  · rw [if_neg hw]
    rw [stepFinish_snd_phase, stepFinish_snd_seg]
    exact ⟨rfl, rfl⟩

/-- C6: the claim as amended.  After a primary motion phase (`drive`,
`strafe` or `arc`) completes its segment, the simulator enters `wpTurn`
if and only if the arriving waypoint's negated heading in degrees exceeds
0.0001 in absolute value — i.e. the waypoint carries a (numerically)
non-zero explicit heading, with no comparison against the segment bearing
as the original claim asserts; otherwise the segment index advances and
the phase becomes `turn`. -/
theorem c6_theorem (dt simSpeed : ℝ) (app : AppState) (s : SimState)
    (hrun : s.isSimulating = true)
    (hseg : s.seg < (simPoints app).length - 1)
    (hphase : s.phase = SimPhase.drive ∨ s.phase = SimPhase.strafe ∨
      s.phase = SimPhase.arc)
    (hfrac : 1 ≤ jsFrac (s.driveProgress + driveSpeedConst * (dt / 1000) * simSpeed)
      (segInfo (simPoints app) s.seg).len) :
    (0.0001 < |radToDeg (-((simPoints app).getD (s.seg + 1) default).h)| →
        (stepRobot dt simSpeed app s).2.phase = SimPhase.wpTurn ∧
        (stepRobot dt simSpeed app s).2.seg = s.seg) ∧
    (¬ 0.0001 < |radToDeg (-((simPoints app).getD (s.seg + 1) default).h)| →
        (stepRobot dt simSpeed app s).2.phase = SimPhase.turn ∧
        (stepRobot dt simSpeed app s).2.seg = s.seg + 1) :=
  stepRobot_motion_complete dt simSpeed app s hrun hseg hphase hfrac

/-- The model for the C6 scenario: start at the origin facing 0, one drive
waypoint at `(0, 1)` whose explicit heading `-π/2` equals the segment
bearing (90 degrees in program convention). -/
def c6App : AppState :=
  ⟨[⟨0, 1, -(Real.pi / 2), some SegType.drive, some 0.8, none, false, none⟩],
    [], ⟨0, 0, 0⟩, none, [], 1⟩

/-- A drive-phase simulator state about to complete the first segment. -/
def c6State : SimState := ⟨0, SimPhase.drive, ⟨0, 0⟩, 0, 1, 0, true⟩

lemma radToDeg_pi_div_two : radToDeg (Real.pi / 2) = 90 := by
  unfold radToDeg
  rw [div_eq_iff Real.pi_ne_zero]
  ring

lemma c6_wpHeading :
    radToDeg (-((simPoints c6App).getD (c6State.seg + 1) default).h) = 90 := by
  have : ((simPoints c6App).getD (c6State.seg + 1) default).h = -(Real.pi / 2) := by
    simp [simPoints, c6App, c6State]
  rw [this, neg_neg, radToDeg_pi_div_two]

lemma c6_len : (segInfo (simPoints c6App) c6State.seg).len = 1 := by
  simp only [segInfo, simPoints, c6App, c6State, startAsWp, List.getD]
  norm_num [jsHypot, Real.sqrt_one]

/-- C6 witness: the amended transition rule at the concrete completing
drive step — the waypoint heading is numerically non-zero, so the phase
becomes `wpTurn` with the segment index unchanged. -/
theorem c6_witness :
    (stepRobot 16 1 c6App c6State).2.phase = SimPhase.wpTurn ∧
    (stepRobot 16 1 c6App c6State).2.seg = c6State.seg := by
  have hfrac : 1 ≤ jsFrac (c6State.driveProgress +
      driveSpeedConst * ((16 : ℝ) / 1000) * 1)
      (segInfo (simPoints c6App) c6State.seg).len := by
    rw [c6_len]
    simp only [c6State, jsFrac, driveSpeedConst]
    norm_num
  have h := c6_theorem 16 1 c6App c6State rfl
    (by simp [simPoints, c6App, c6State]) (Or.inl rfl) hfrac
  exact h.1 (by rw [c6_wpHeading]; norm_num)

/-- C6 counterexample to the original claim: at the concrete completing
drive step the arriving waypoint's explicit heading (90 degrees, non-zero)
EQUALS the segment bearing (90 degrees), so by the original claim the
simulator should advance directly to `turn`; the code enters `wpTurn`. -/
theorem c6_counterexample :
    (stepRobot 16 1 c6App c6State).2.phase = SimPhase.wpTurn ∧
    radToDeg (-((simPoints c6App).getD (c6State.seg + 1) default).h) =
      (segInfo (simPoints c6App) c6State.seg).ang ∧
    (0.0001 : ℝ) <
      |radToDeg (-((simPoints c6App).getD (c6State.seg + 1) default).h)| := by
  have hfrac : 1 ≤ jsFrac (c6State.driveProgress +
      driveSpeedConst * ((16 : ℝ) / 1000) * 1)
      (segInfo (simPoints c6App) c6State.seg).len := by
    rw [c6_len]
    simp only [c6State, jsFrac, driveSpeedConst]
    norm_num
  have h := stepRobot_motion_complete 16 1 c6App c6State rfl
    (by simp [simPoints, c6App, c6State]) (Or.inl rfl) hfrac
  have hang : (segInfo (simPoints c6App) c6State.seg).ang = 90 := by
    simp only [segInfo, simPoints, c6App, c6State, startAsWp, List.getD]
    norm_num
    rw [show atan2 1 0 = Real.pi / 2 by unfold atan2; norm_num,
      radToDeg_pi_div_two]
  refine ⟨?_, ?_, ?_⟩
  · exact (h.1 (by rw [c6_wpHeading]; norm_num)).1
  · rw [c6_wpHeading, hang]
  · rw [c6_wpHeading]; norm_num

/-! ## C8: what the simulator writes back into the model -/

/-- The waypoint fields the simulator leaves alone: everything except that
a missing arc control point may be filled in. -/
def wpPreserved (w w' : Waypoint) : Prop :=
  w'.x = w.x ∧ w'.y = w.y ∧ w'.h = w.h ∧ w'.segmentType = w.segmentType ∧
  w'.arcSpeed = w.arcSpeed ∧ w'.isAction = w.isAction ∧
  w'.actionId = w.actionId ∧
  (w'.arcControlPoint = w.arcControlPoint ∨ w.arcControlPoint = none)

/-- The model-preservation relation for C8: start, markers, selection,
history and the marker counter are untouched, the waypoint count is
unchanged, and every waypoint is preserved up to control-point caching. -/
def modelPreserved (a b : AppState) : Prop :=
  b.start = a.start ∧ b.markers = a.markers ∧
  b.selectedSegmentIdx = a.selectedSegmentIdx ∧ b.history = a.history ∧
  b.nextMarkerId = a.nextMarkerId ∧
  b.waypoints.length = a.waypoints.length ∧
  ∀ j, wpPreserved (a.waypoints.getD j default) (b.waypoints.getD j default)

lemma wpPreserved_refl (w : Waypoint) : wpPreserved w w :=
  ⟨rfl, rfl, rfl, rfl, rfl, rfl, rfl, Or.inl rfl⟩

lemma modelPreserved_refl (a : AppState) : modelPreserved a a :=
  ⟨rfl, rfl, rfl, rfl, rfl, rfl, fun _ => wpPreserved_refl _⟩

/-- Setting one waypoint to a preserved replacement preserves the model. -/
lemma preserved_of_set (app : AppState) (i : ℕ)
    (hi : i < app.waypoints.length) (w' : Waypoint)
    (hw : wpPreserved (app.waypoints.getD i default) w') :
    modelPreserved app { app with waypoints := app.waypoints.set i w' } := by
  refine ⟨rfl, rfl, rfl, rfl, rfl, by simp, ?_⟩
  intro j
  by_cases hj : j < app.waypoints.length
  · have hj' : j < (app.waypoints.set i w').length := by simpa using hj
    rw [List.getD_eq_getElem _ _ hj', List.getD_eq_getElem _ _ hj,
      List.getElem_set]
    by_cases hij : i = j
    · rw [if_pos hij]
      subst hij
      rw [List.getD_eq_getElem _ _ hi] at hw
      exact hw
    · rw [if_neg hij]
      exact wpPreserved_refl _
  · rw [List.getD_eq_default _ _ (by omega),
      List.getD_eq_default _ _ (by simp; omega)]
    exact wpPreserved_refl _

lemma gacp_preserved (app : AppState) (i : ℕ) :
    modelPreserved app (getArcControlPoint app i).1 := by
  unfold getArcControlPoint
  by_cases h1 : i < 1 ∨ app.waypoints.length ≤ i
  · rw [if_pos h1]
    exact modelPreserved_refl app
  · rw [if_neg h1]
    dsimp only
    by_cases h2 : (app.waypoints.getD i default).segmentType = some SegType.arc
    · rw [if_pos h2]
      cases hacp : (app.waypoints.getD i default).arcControlPoint with
      | some cp => exact modelPreserved_refl app
      | none =>
          exact preserved_of_set app i (by omega) _
            ⟨rfl, rfl, rfl, rfl, rfl, rfl, rfl, Or.inr hacp⟩
    · rw [if_neg h2]
      exact modelPreserved_refl app

lemma stepRobot_preserved (dt simSpeed : ℝ) (app : AppState) (s : SimState) :
    modelPreserved app (stepRobot dt simSpeed app s).1 := by
  obtain ⟨seg, phase, pos0, hdg, dp0, dtr, run⟩ := s
  unfold stepRobot
  by_cases hrun : run = false
  · rw [if_pos (by simpa using hrun)]
    exact modelPreserved_refl app
  · rw [if_neg (by simpa using hrun)]
    by_cases hseg : (simPoints app).length - 1 ≤ seg
    · rw [if_pos hseg]
      exact modelPreserved_refl app
    · rw [if_neg hseg]
      cases phase <;> dsimp only <;> rw [stepFinish_fst] <;>
        split_ifs <;>
        first
          | exact modelPreserved_refl app
          | exact gacp_preserved app seg

/-- C8: the claim as amended.  The simulator does not read the Path Model
strictly read-only: the one write it performs is caching a default arc
control point into an arc waypoint that lacks one (via
`getArcControlPoint`, both in path pre-calculation and in the arc phase of
`step`).  Everything else — start pose, markers, selection, history,
marker counter, waypoint count, and every other waypoint field — is left
exactly as it was, by `getArcControlPoint` and by every `step` call. -/
theorem c8_theorem :
    (∀ (app : AppState) (i : ℕ),
      modelPreserved app (getArcControlPoint app i).1) ∧
    (∀ (dt simSpeed : ℝ) (app : AppState) (s : SimState),
      modelPreserved app (stepRobot dt simSpeed app s).1) :=
  ⟨gacp_preserved, stepRobot_preserved⟩

/-- A model with a drive waypoint followed by an arc waypoint that has no
cached control point. -/
def c8App : AppState :=
  ⟨[⟨0.3, 0, 0, some SegType.drive, some 0.8, none, false, none⟩,
    ⟨1, 0, 0, some SegType.arc, some 0.8, none, false, none⟩],
    [], ⟨0, 0, 0⟩, none, [], 1⟩

/-- The default control point the simulator caches for the arc segment of
`c8App`. -/
def c8cp : Point := computeDefaultArcControl ⟨0.3, 0⟩ ⟨1, 0⟩

/-- C8 counterexample to the original claim: the simulator's
`getArcControlPoint` on the arc segment writes the computed default control
point back into the waypoint, so the Path Model is not left exactly as it
was — the arc waypoint's cached-control-point field flips from absent to
present. -/
theorem c8_counterexample :
    (c8App.waypoints.getD 1 default).arcControlPoint = none ∧
    ((getArcControlPoint c8App 1).1.waypoints.getD 1 default).arcControlPoint
      ≠ none ∧
    (getArcControlPoint c8App 1).1 ≠ c8App := by
  have hred : (getArcControlPoint c8App 1).1.waypoints.getD 1 default =
      ⟨1, 0, 0, some SegType.arc, some 0.8, some c8cp, false, none⟩ := by
    simp [getArcControlPoint, c8App, c8cp, List.getD, List.set, startAsWp]
  refine ⟨rfl, ?_, ?_⟩
  · rw [hred]
    simp
  · intro hc
    have h2 := congrArg
      (fun a : AppState => (a.waypoints.getD 1 default).arcControlPoint) hc
    simp only [hred] at h2
    simp [c8App] at h2
